import Mathlib

/-!
Shallow embedding of `src/microstate/state_machine.py` (the Micro-State
library): the transition registry (`Transitions`), the inheritance merge
performed in `AbstractStateMachine.__init_subclass__`, the dispatch runtime
(`AbstractStateMachine.update`), the `current_state` property setter, and the
manual-transition wrapper produced by `Transitions.manual`.

Modelling conventions:
* A Python enum member is a `StateVal`: `id` identifies the member, `domain`
  identifies its concrete enum class (`type(state)`), and `truthy` is its
  Python truth value (`bool(state)`; plain `Enum` members are truthy, but
  e.g. an `IntEnum` member with value `0` is falsy).
* Python `dict` values are association lists (`List (StateVal × _)`)
  preserving insertion order, with `setdefault`/`get`/item-assignment
  embedded explicitly.
* A handler function is a `Handler`: its `__name__`, its
  `inspect.signature` data (parameter list and return annotation), and its
  behaviour `fn`, which receives the machine (exposed as the current state)
  and the caller-supplied input and returns `Optional[State]`.
* Exceptions are `Except SMError`; each constructor mirrors one raise site.
-/

set_option autoImplicit false

namespace Microstate

/-- A runtime state value: a Python enum member.  `id` distinguishes members,
`domain` is the concrete enum type the member belongs to (`type(member)`),
and `truthy` is the member's Python truth value. -/
structure StateVal where
  id : Nat
  domain : Nat
  truthy : Bool := true
deriving DecidableEq, Repr

/-- One parameter of an `inspect.Signature`: its name and declared
annotation.  (`inspect.Parameter` equality also compares kind and default;
those fields play no role in the claims and are elided.) -/
structure Param where
  name : String
  annot : String
deriving DecidableEq, Repr

/-- A handler's declared return annotation, as `inner_register` inspects it:
the state enum type itself (`sig.return_annotation is state_type`), a
`Literal[...]` whose arguments are runtime values, or any other annotation
(`int`, `Optional[...]`, another enum type, ...). -/
inductive RetAnnot where
  /-- The return annotation is the enum type with this domain tag. -/
  | stateType (domain : Nat)
  /-- `Literal[v1, ..., vn]`; each `vi` is a runtime value whose
  `type(vi)` is its `domain` tag. -/
  | literal (vals : List StateVal)
  /-- Any other annotation, identified by its display name. -/
  | otherType (name : String)
deriving DecidableEq, Repr

/-- A transition handler function: its `__name__`, its signature data, and
its behaviour.  `fn` receives the machine's current state (the only part of
`self` a handler can observe in the embedding) and the input, and returns
`Optional[State]`. -/
structure Handler (Input : Type) where
  name : String
  params : List Param
  retAnnot : RetAnnot
  fn : StateVal → Input → Option StateVal

/-- The errors raised by the library.  `signatureMismatch` and
`returnTypeMismatch` are both `TransitionSignatureError` in the source,
distinguished only by message; the embedding separates the two raise
sites. -/
inductive SMError where
  | signatureMismatch
  | returnTypeMismatch
  | transitionFrozenError
  | transitionNotFrozenError
  | invalidStateInput
deriving DecidableEq, Repr

variable {Input : Type}

/-- A dispatch table: the Python `dict[StateEnumT, tuple[handler, ...]]`
as an insertion-ordered association list. -/
abbrev Table (Input : Type) : Type := List (StateVal × List (Handler Input))

/-- `dict.get(state, ())` followed by nothing: the first binding of `s`,
if any. -/
def lookupState (t : Table Input) (s : StateVal) : Option (List (Handler Input)) :=
  match t with
  | [] => none
  | (k, v) :: rest => if k = s then some v else lookupState rest s

/-- `self._state_transitions.get(self._current_state, ())`. -/
def handlersFor (t : Table Input) (s : StateVal) : List (Handler Input) :=
  (lookupState t s).getD []

/-- The loop body of `AbstractStateMachine.update` (lines 160-164): walk the
handler tuple in order; the first result that is present (`is not None`) and
differs from the current state is committed and the loop breaks; otherwise
the current state is kept. -/
def runHandlers (hs : List (Handler Input)) (cur : StateVal) (input : Input) : StateVal :=
  match hs with
  | [] => cur
  | h :: rest =>
    match h.fn cur input with
    | none => runHandlers rest cur input
    | some s => if s = cur then runHandlers rest cur input else s

/-- `AbstractStateMachine.update` (lines 159-165): dispatch on the tuple
registered for the current state and return the (possibly unchanged)
current state. -/
def update (t : Table Input) (cur : StateVal) (input : Input) : StateVal :=
  runHandlers (handlersFor t cur) cur input

/-- `n` successive `update` calls, each starting from the state the previous
call returned. -/
def updateIter (t : Table Input) (cur : StateVal) (input : Input) : Nat → StateVal
  | 0 => cur
  | n + 1 => updateIter t (update t cur input) input n

/-- A handler that does not trigger a commit in `update` from `cur` on
`input`: its result is absent or equal to the current state. -/
def noChange (h : Handler Input) (cur : StateVal) (input : Input) : Prop :=
  h.fn cur input = none ∨ h.fn cur input = some cur

/-- The `current_state` property setter (lines 155-157):
`self._current_state = state or self._current_state`.  `None` is falsy, and
a present but falsy state value also keeps the old current state. -/
def setCurrentState (cur : StateVal) (state : Option StateVal) : StateVal :=
  match state with
  | none => cur
  | some s => if s.truthy then s else cur

/-- The wrapper built by `Transitions.manual` (`inner_wrapper`, lines
288-295): call the wrapped handler; if the result is present, assign it
through the `current_state` setter; return the (possibly unchanged) current
state. -/
def manualWrapper (func : StateVal → Input → Option StateVal)
    (cur : StateVal) (input : Input) : StateVal :=
  match func cur input with
  | none => cur
  | some s => setCurrentState cur (some s)

/-- The state of a `Transitions` registry (`Transitions.__init__`,
lines 169-188).  `specParams` is `inspect.signature(self._spec).parameters`,
captured from the reference update method the registry was opened with. -/
structure Registry (Input : Type) where
  specParams : List Param
  transitions : Table Input := []
  frozenTransitions : Table Input := []
  manualTransitions : List (StateVal → Input → StateVal) := []
  frozenManualTransitions : List (StateVal → Input → StateVal) := []
  frozen : Bool := false

/-- `self._transitions.setdefault(state, []).append(func)`: append `func` to
the list bound to `s`, inserting a new binding at the end when absent. -/
def appendHandler (t : Table Input) (s : StateVal) (h : Handler Input) : Table Input :=
  match t with
  | [] => [(s, [h])]
  | (k, v) :: rest =>
    if k = s then (k, v ++ [h]) :: rest else (k, v) :: appendHandler rest s h

/-- The condition under which `inner_register` (lines 224-229) raises the
return-type variant of `TransitionSignatureError`:
`sig.return_annotation is not state_type and (get_origin(...) is Literal and
any(type(r) is not state_type for r in get_args(...)))`. -/
def badReturnAnnot (ra : RetAnnot) (stateType : Nat) : Bool :=
  (ra ≠ RetAnnot.stateType stateType) &&
    (match ra with
     | .literal vals => vals.any (fun v => v.domain ≠ stateType)
     | _ => false)

/-- `Transitions.new` (lines 190-240) applied through its `inner_register`
decorator: check frozen, then the state-set input, then the candidate's
parameter list against the reference signature, then its return annotation;
on success append the handler (unchanged) to every listed state's list.  The
source splits this into a decorator factory returning `inner_register`; the
checks are performed in this order. -/
def Registry.new (r : Registry Input) (fromStates : List StateVal)
    (func : Handler Input) : Except SMError (Registry Input) :=
  if r.frozen then
    .error .transitionFrozenError
  else match fromStates with
  | [] => .error .invalidStateInput
  | s0 :: _ =>
    let stateType := s0.domain
    if ¬ fromStates.all (fun s => s.domain = stateType) then
      .error .invalidStateInput
    else if func.params ≠ r.specParams then
      .error .signatureMismatch
    else if badReturnAnnot func.retAnnot stateType then
      .error .returnTypeMismatch
    else
      .ok { r with
            transitions := fromStates.foldl (fun t s => appendHandler t s func) r.transitions }

/-- `Transitions._freeze` (lines 256-263): copy the mutable dict into the
frozen dict (the per-state lists become tuples), likewise for manual
transitions, clear the mutable storage, and set the frozen flag. -/
def Registry.freeze (r : Registry Input) : Registry Input :=
  { r with
    frozenTransitions := r.transitions
    frozenManualTransitions := r.manualTransitions
    transitions := []
    manualTransitions := []
    frozen := true }

/-- `Transitions.get_transitions` (lines 265-277): raise before freeze,
otherwise return the frozen dispatch table and the frozen manual tuple. -/
def Registry.getTransitions (r : Registry Input) :
    Except SMError (Table Input × List (StateVal → Input → StateVal)) :=
  if ¬ r.frozen then .error .transitionNotFrozenError
  else .ok (r.frozenTransitions, r.frozenManualTransitions)

/-- `Transitions.manual` (lines 279-298): raise if frozen; otherwise build
`inner_wrapper`, append it to the manual-transition list, and return it. -/
def Registry.manual (r : Registry Input) (func : StateVal → Input → Option StateVal) :
    Except SMError (Registry Input × (StateVal → Input → StateVal)) :=
  if r.frozen then
    .error .transitionFrozenError
  else
    .ok ({ r with manualTransitions := r.manualTransitions ++ [manualWrapper func] },
         manualWrapper func)

/-- The Python membership test `f not in overriden_transitions` in
`__init_subclass__` (line 147) negated: `f` is a handler (a function
object) and `overriden_transitions` is a tuple of names (strings), so the
`in` test compares a function with strings and is always `False`. -/
def funcInNames (_f : Handler Input) (_names : List String) : Bool :=
  false

/-- One iteration of the merge loop in `__init_subclass__`
(lines 136-149) for the entry `(state, funcs)` of a registry's frozen table:
`setdefault(state, ())`; if the inherited tuple is empty the new tuple is
stored as is; otherwise the inherited tuple is filtered by the (always-true)
membership test and the new tuple is appended. -/
def mergeStep (t : Table Input) (entry : StateVal × List (Handler Input)) : Table Input :=
  let state := entry.1
  let funcs := entry.2
  match lookupState t state with
  | none =>
    -- `setdefault` inserts `(state, ())`; the empty tuple is then replaced
    -- by `funcs` in the `len == 0` branch.
    t ++ [(state, funcs)]
  | some parents =>
    if parents.length = 0 then
      t.map (fun kv => if kv.1 = state then (kv.1, funcs) else kv)
    else
      let overriden := parents.map (fun f => f.name)
      let merged := parents.filter (fun f => ¬ funcInNames f overriden) ++ funcs
      t.map (fun kv => if kv.1 = state then (kv.1, merged) else kv)

/-- The full merge of `__init_subclass__` for one registry: fold `mergeStep`
over the registry's frozen table, starting from the (copied) inherited
dispatch table. -/
def mergeTables (parent : Table Input) (reg : Table Input) : Table Input :=
  reg.foldl mergeStep parent

/-- A handler with its signature data replaced but its behaviour kept;
used to state that dispatch never consults signature data. -/
def Handler.withSig (h : Handler Input) (p : List Param) (ra : RetAnnot) : Handler Input :=
  { h with params := p, retAnnot := ra }

/-- Replace the signature data of every handler in a table. -/
def tableWithSig (t : Table Input) (p : List Param) (ra : RetAnnot) : Table Input :=
  t.map (fun kv => (kv.1, kv.2.map (fun h => h.withSig p ra)))

/-- Whether registration succeeded. -/
def regOk : Except SMError (Registry Input) → Bool
  | .ok _ => true
  | .error _ => false

/-! ## Concrete fixtures

A small concrete machine over `Input := Nat`, used to instantiate the
theorems: one enum domain (tag `0`) with members `stA`, `stB`, `stC` and a
falsy member `stZ` (as an `IntEnum` member of value `0` would be), plus a
handful of handlers matching a one-parameter reference signature. -/

/-- The `self` parameter of the reference `update` signature. -/
def pSelf : Param := ⟨"self", "Self"⟩

/-- Enum member `A` of the state domain. -/
def stA : StateVal := ⟨0, 0, true⟩

/-- Enum member `B` of the state domain. -/
def stB : StateVal := ⟨1, 0, true⟩

/-- Enum member `C` of the state domain. -/
def stC : StateVal := ⟨2, 0, true⟩

/-- A falsy enum member of the state domain (e.g. `IntEnum` value `0`). -/
def stZ : StateVal := ⟨3, 0, false⟩

/-- A handler that never proposes a transition. -/
def hNoneW : Handler Nat := ⟨"h_none", [pSelf], .stateType 0, fun _ _ => none⟩

/-- A handler that always proposes `stB`. -/
def hToBW : Handler Nat := ⟨"h_to_b", [pSelf], .stateType 0, fun _ _ => some stB⟩

/-- A handler that always proposes `stC`. -/
def hToCW : Handler Nat := ⟨"h_to_c", [pSelf], .stateType 0, fun _ _ => some stC⟩

/-- A dispatch table binding `stA` to `[hNoneW, hToBW, hToCW]`. -/
def tblW : Table Nat := [(stA, [hNoneW, hToBW, hToCW])]

/-- An inherited handler named `go` for `stA`. -/
def hBaseGo : Handler Nat := ⟨"go", [pSelf], .stateType 0, fun _ _ => some stB⟩

/-- A newly registered handler, also named `go`, for `stA`. -/
def hNewGo : Handler Nat := ⟨"go", [pSelf], .stateType 0, fun _ _ => some stC⟩

/-- A freshly opened registry whose reference signature is `(self)`. -/
def rOpenW : Registry Nat := { specParams := [pSelf] }

/-- An already-frozen registry. -/
def rFrozenW : Registry Nat := { specParams := [pSelf], frozen := true }

/-- A registry holding one registered transition (`hToBW` from `stA`),
not yet frozen. -/
def rOneW : Registry Nat := { specParams := [pSelf], transitions := [(stA, [hToBW])] }

/-- A candidate handler whose declared return type is the unrelated type
`int` rather than the state enum type or a `Literal` of its members. -/
def hIntRet : Handler Nat := ⟨"h_int_ret", [pSelf], .otherType "int", fun _ _ => some stB⟩

/-- A manual handler that always proposes the falsy member `stZ`. -/
def fManZ : StateVal → Nat → Option StateVal := fun _ _ => some stZ

/-- A manual handler that proposes `stB` from `stA` and nothing elsewhere. -/
def fManB : StateVal → Nat → Option StateVal :=
  fun cur _ => if cur = stA then some stB else none

/-- A candidate handler whose parameter list has an extra parameter compared
to the reference signature. -/
def hBadSig : Handler Nat :=
  ⟨"h_bad_sig", [pSelf, ⟨"extra", "int"⟩], .stateType 0, fun _ _ => none⟩

/-- A candidate handler annotated `Literal[v]` for a value `v` drawn from a
different enum domain (tag `1`). -/
def hLitBad : Handler Nat :=
  ⟨"h_lit_bad", [pSelf], .literal [⟨5, 1, true⟩], fun _ _ => none⟩

/-! ## Basic lemmas about the dispatch loop -/

theorem runHandlers_all_noChange (cur : StateVal) (input : Input) :
    ∀ hs : List (Handler Input), (∀ h ∈ hs, noChange h cur input) →
      runHandlers hs cur input = cur := by
  intro hs
  induction hs with
  | nil => intro _; rfl
  | cons h rest ih =>
    intro hall
    have hrest : runHandlers rest cur input = cur :=
      ih (fun h' hm => hall h' (List.mem_cons_of_mem _ hm))
    rcases hall h (List.mem_cons_self _ _) with hnone | hsame
    · simpa [runHandlers, hnone] using hrest
    · simpa [runHandlers, hsame] using hrest

theorem runHandlers_first_change (cur s : StateVal) (input : Input)
    (h : Handler Input) (post : List (Handler Input)) :
    ∀ pre : List (Handler Input), (∀ h' ∈ pre, noChange h' cur input) →
      h.fn cur input = some s → s ≠ cur →
      runHandlers (pre ++ h :: post) cur input = s := by
  intro pre
  induction pre with
  | nil =>
    intro _ hfn hne
    simp [runHandlers, hfn, hne]
  | cons h0 rest ih =>
    intro hall hfn hne
    have htail : runHandlers (rest ++ h :: post) cur input = s :=
      ih (fun h' hm => hall h' (List.mem_cons_of_mem _ hm)) hfn hne
    rcases hall h0 (List.mem_cons_self _ _) with hnone | hsame
    · simpa [runHandlers, hnone] using htail
    · simpa [runHandlers, hsame] using htail

theorem runHandlers_withSig (cur : StateVal) (input : Input)
    (p : List Param) (ra : RetAnnot) :
    ∀ hs : List (Handler Input),
      runHandlers (hs.map (fun h => h.withSig p ra)) cur input =
        runHandlers hs cur input := by
  intro hs
  induction hs with
  | nil => rfl
  | cons h rest ih =>
    show runHandlers (h.withSig p ra :: rest.map (fun h => h.withSig p ra)) cur input = _
    have hfn : (h.withSig p ra).fn = h.fn := rfl
    cases hcase : h.fn cur input with
    | none => simp [runHandlers, hfn, hcase, ih]
    | some s => simp [runHandlers, hfn, hcase, ih]

theorem lookupState_tableWithSig (p : List Param) (ra : RetAnnot) (s : StateVal) :
    ∀ t : Table Input,
      lookupState (tableWithSig t p ra) s =
        (lookupState t s).map (fun hs => hs.map (fun h => h.withSig p ra)) := by
  intro t
  induction t with
  | nil => rfl
  | cons kv rest ih =>
    by_cases hk : kv.1 = s
    · simp [tableWithSig, lookupState, hk]
    · simpa [tableWithSig, lookupState, hk] using ih

theorem update_tableWithSig (t : Table Input) (cur : StateVal) (input : Input)
    (p : List Param) (ra : RetAnnot) :
    update (tableWithSig t p ra) cur input = update t cur input := by
  unfold update handlersFor
  rw [lookupState_tableWithSig]
  cases lookupState t cur with
  | none => rfl
  | some hs => simpa using runHandlers_withSig cur input p ra hs

theorem badReturnAnnot_literal_iff (ra : RetAnnot) (d : Nat) :
    badReturnAnnot ra d = true ↔
      ∃ vals, ra = RetAnnot.literal vals ∧ ∃ v ∈ vals, v.domain ≠ d := by
  cases ra with
  | stateType d2 => simp [badReturnAnnot]
  | literal vals => simp [badReturnAnnot, List.any_eq_true]
  | otherType n => simp [badReturnAnnot]

/-! ## Claim theorems -/

/-- C1: `update` iterates the handler tuple registered for the current state
in order; the first handler whose result is present and differs from the
current state becomes the new current state and iteration stops immediately
(the result is the same for every tail `post` of not-yet-visited handlers,
so none of them is invoked); if no handler returns a differing present value
the current state is left unchanged; the call returns the (possibly
unchanged) current state. -/
theorem update_first_change_wins {Input : Type} (t : Table Input) (cur : StateVal)
    (input : Input) :
    (∀ (pre : List (Handler Input)) (h : Handler Input) (post : List (Handler Input))
        (s : StateVal),
        handlersFor t cur = pre ++ h :: post →
        (∀ h' ∈ pre, noChange h' cur input) →
        h.fn cur input = some s → s ≠ cur →
        update t cur input = s) ∧
    ((∀ h ∈ handlersFor t cur, noChange h cur input) →
        update t cur input = cur) := by
  constructor
  · intro pre h post s hsplit hpre hfn hne
    unfold update
    rw [hsplit]
    exact runHandlers_first_change cur s input h post pre hpre hfn hne
  · intro hall
    unfold update
    exact runHandlers_all_noChange cur input (handlersFor t cur) hall

/-- Witness for C1: in the concrete table `tblW`, dispatch from `stA` skips
the absent-result handler `hNoneW`, commits `hToBW`'s differing result `stB`,
and `hToCW` (the tail) is irrelevant; from the unbound state `stC` every
handler (there are none) is skipped and the state is unchanged. -/
theorem update_first_change_wins_witness :
    update tblW stA (0 : Nat) = stB ∧ update tblW stC (0 : Nat) = stC := by
  constructor
  · apply (update_first_change_wins tblW stA 0).1 [hNoneW] hToBW [hToCW] stB
    · rfl
    · intro h' hm
      have hh : h' = hNoneW := by simpa using hm
      subst hh
      exact Or.inl rfl
    · rfl
    · decide
  · apply (update_first_change_wins tblW stC 0).2
    intro h hm
    simp [tblW, handlersFor, lookupState, stA, stC] at hm

/-- C9: a state bound to no handler in the dispatch table is a sink: a
single `update` call returns the current state unchanged, and so does any
number of repeated calls. -/
theorem no_handler_sink {Input : Type} (t : Table Input) (cur : StateVal)
    (input : Input) :
    handlersFor t cur = [] →
    update t cur input = cur ∧ ∀ n : Nat, updateIter t cur input n = cur := by
  intro hemp
  have h1 : update t cur input = cur := by
    unfold update
    rw [hemp]
    rfl
  refine ⟨h1, ?_⟩
  intro n
  induction n with
  | zero => rfl
  | succ n ih =>
    show updateIter t (update t cur input) input n = cur
    rw [h1]
    exact ih

/-- Witness for C9: `stC` has no entry in `tblW`; dispatch from it is a
no-op, also after three repetitions. -/
theorem no_handler_sink_witness :
    update tblW stC (7 : Nat) = stC ∧ updateIter tblW stC (7 : Nat) 3 = stC := by
  have h := no_handler_sink tblW stC 7 rfl
  exact ⟨h.1, h.2 3⟩

/-- C10: the public `current_state` setter commits through
`state or self._current_state`: assigning `None` keeps the current state,
assigning a falsy state value also keeps it, and assigning a truthy state
value commits it. -/
theorem setter_truthy_commit (cur s : StateVal) :
    setCurrentState cur none = cur ∧
    (s.truthy = false → setCurrentState cur (some s) = cur) ∧
    (s.truthy = true → setCurrentState cur (some s) = s) := by
  refine ⟨rfl, ?_, ?_⟩
  · intro hf
    simp [setCurrentState, hf]
  · intro ht
    simp [setCurrentState, ht]

/-- Witness for C10: assigning `None`, the falsy member `stZ`, and the
truthy member `stB` to a machine sitting in `stA`. -/
theorem setter_truthy_commit_witness :
    setCurrentState stA none = stA ∧
    setCurrentState stA (some stZ) = stA ∧
    setCurrentState stA (some stB) = stB := by
  have h := setter_truthy_commit stA stZ
  have h2 := setter_truthy_commit stA stB
  exact ⟨h.1, h.2.1 (by decide), h2.2.2 (by decide)⟩

/-- C7: calling `Transitions.new` on a frozen registry raises
`TransitionFrozenError`, whatever the state set and handler; a successful
registration can only have happened on an unfrozen registry, so no handler
is ever added to a frozen one. -/
theorem new_after_freeze_raises {Input : Type} (r : Registry Input)
    (fromStates : List StateVal) (func : Handler Input) :
    (r.frozen = true →
      Registry.new r fromStates func = .error .transitionFrozenError) ∧
    (∀ r2 : Registry Input,
      Registry.new r fromStates func = .ok r2 → r.frozen = false) := by
  constructor
  · intro hf
    unfold Registry.new
    simp [hf]
  · intro r2 hok
    cases hf : r.frozen with
    | false => rfl
    | true =>
      unfold Registry.new at hok
      simp [hf] at hok

/-- Witness for C7: registering `hToBW` from `stA` on the frozen registry
`rFrozenW` raises `TransitionFrozenError`. -/
theorem new_after_freeze_raises_witness :
    Registry.new rFrozenW [stA] hToBW = .error .transitionFrozenError :=
  (new_after_freeze_raises rFrozenW [stA] hToBW).1 rfl

/-- C8: on an open registry with a valid state set, a candidate whose
parameter list differs from the reference signature (in arity, order, or
declared type the lists differ) is rejected with the signature-mismatch
error at registration time; and dispatch never consults signature data —
`update` gives the same result when every handler's signature fields are
replaced arbitrarily. -/
theorem signature_check_at_registration_only {Input : Type} (r : Registry Input)
    (s0 : StateVal) (rest : List StateVal) (func : Handler Input)
    (t : Table Input) (cur : StateVal) (input : Input)
    (p : List Param) (ra : RetAnnot) :
    (r.frozen = false →
      (∀ s ∈ s0 :: rest, s.domain = s0.domain) →
      func.params ≠ r.specParams →
      Registry.new r (s0 :: rest) func = .error .signatureMismatch) ∧
    update (tableWithSig t p ra) cur input = update t cur input := by
  constructor
  · intro hfz hall hne
    have hallb : ((s0 :: rest).all fun s => s.domain = s0.domain) = true := by
      rw [List.all_eq_true]
      intro x hx
      simpa using hall x hx
    unfold Registry.new
    simp [hfz, hallb, hne]
  · exact update_tableWithSig t cur input p ra

/-- Witness for C8: `hBadSig` has an extra parameter and is rejected by
`rOpenW`, while rewriting the signature data of every handler in `tblW`
leaves dispatch from `stA` unchanged. -/
theorem signature_check_at_registration_only_witness :
    Registry.new rOpenW [stA] hBadSig = .error .signatureMismatch ∧
    update (tableWithSig tblW [] (.otherType "int")) stA (0 : Nat) =
      update tblW stA (0 : Nat) := by
  have h := signature_check_at_registration_only rOpenW stA [] hBadSig
    tblW stA 0 [] (.otherType "int")
  refine ⟨h.1 rfl ?_ (by decide), h.2⟩
  intro s hs
  rw [List.mem_singleton] at hs
  subst hs
  rfl

/-- C2 (code evaluated at the failing input): the merge in
`__init_subclass__` keeps an inherited handler even when a newly registered
handler with the same declared name exists for the same state — the
membership test compares function objects against a tuple of names, so the
filter never drops anything, and both handlers end up in the table. -/
theorem merge_same_name_not_overridden :
    hBaseGo.name = hNewGo.name ∧
    mergeTables [(stA, [hBaseGo])] [(stA, [hNewGo])] = [(stA, [hBaseGo, hNewGo])] :=
  ⟨rfl, rfl⟩

/-- C3 counterexample: declaring a manual handler on a frozen registry does
not succeed — `Transitions.manual` raises `TransitionFrozenError`. -/
theorem manual_after_freeze_raises_cex :
    Registry.manual rFrozenW fManB = .error .transitionFrozenError := rfl

/-- C3 amended: `manual` is gated on the freeze flag exactly like `new`: on
a frozen registry it raises `TransitionFrozenError`; while the registry is
open it succeeds and appends the wrapper to the manual-transition list. -/
theorem manual_freeze_gate {Input : Type} (r : Registry Input)
    (func : StateVal → Input → Option StateVal) :
    (r.frozen = true → Registry.manual r func = .error .transitionFrozenError) ∧
    (r.frozen = false →
      Registry.manual r func =
        .ok ({ r with manualTransitions := r.manualTransitions ++ [manualWrapper func] },
             manualWrapper func)) := by
  constructor
  · intro hf
    unfold Registry.manual
    simp [hf]
  · intro hf
    unfold Registry.manual
    simp [hf]

/-- Witness for C3's amended claim: `manual` fails on the frozen `rFrozenW`
and succeeds on the open `rOpenW`. -/
theorem manual_freeze_gate_witness :
    Registry.manual rFrozenW fManB = .error .transitionFrozenError ∧
    Registry.manual rOpenW fManB =
      .ok ({ rOpenW with manualTransitions := [manualWrapper fManB] },
           manualWrapper fManB) := by
  refine ⟨(manual_freeze_gate rFrozenW fManB).1 rfl, ?_⟩
  have h := (manual_freeze_gate rOpenW fManB).2 rfl
  simpa [rOpenW] using h

/-- C4 counterexample: freezing the one-transition registry `rOneW` once
yields the table `[(stA, [hToBW])]`; freezing it again is allowed but
rebuilds the frozen table from the mutable storage the first freeze cleared,
yielding the empty table, which differs from the first freeze's. -/
theorem double_freeze_empties_table_cex :
    Registry.getTransitions (Registry.freeze rOneW) = .ok ([(stA, [hToBW])], []) ∧
    Registry.getTransitions (Registry.freeze (Registry.freeze rOneW)) = .ok ([], []) ∧
    ([(stA, [hToBW])] : Table Nat) ≠ [] :=
  ⟨rfl, rfl, by simp⟩

/-- C4 amended: a second freeze never raises and keeps the registry frozen,
but it replaces the frozen dispatch table and manual tuple by empty ones
(the first freeze cleared the mutable storage they are rebuilt from); the
two freezes produce the same table only when the registry had no registered
transitions. -/
theorem freeze_reentry {Input : Type} (r : Registry Input) :
    (Registry.freeze (Registry.freeze r)).frozen = true ∧
    (Registry.freeze (Registry.freeze r)).frozenTransitions = [] ∧
    (Registry.freeze (Registry.freeze r)).frozenManualTransitions = [] ∧
    (r.transitions = [] →
      (Registry.freeze (Registry.freeze r)).frozenTransitions =
        (Registry.freeze r).frozenTransitions) := by
  refine ⟨rfl, rfl, rfl, ?_⟩
  intro hemp
  show ([] : Table Input) = r.transitions
  exact hemp.symm

/-- Witness for C4's amended claim: on the empty open registry `rOpenW` the
second freeze agrees with the first. -/
theorem freeze_reentry_witness :
    (Registry.freeze (Registry.freeze rOpenW)).frozenTransitions = [] ∧
    (Registry.freeze (Registry.freeze rOpenW)).frozenTransitions =
      (Registry.freeze rOpenW).frozenTransitions := by
  have h := freeze_reentry rOpenW
  exact ⟨h.2.1, h.2.2.2 rfl⟩

/-- C5 counterexample: `hIntRet` declares the unrelated return type `int`
(neither the state type nor any subset of its values), yet registering it on
the open registry `rOpenW` succeeds, because the return-type check only
fires on `Literal` annotations. -/
theorem unrelated_return_type_accepted_cex :
    regOk (Registry.new rOpenW [stA] hIntRet) = true ∧
    hIntRet.retAnnot = RetAnnot.otherType "int" :=
  ⟨rfl, rfl⟩

/-- C5 amended: with an open registry, a valid state set, and a matching
parameter list, registration fails with the return-type-mismatch error
exactly when the declared return annotation is a `Literal` containing a
value whose type is not the domain state type; any non-`Literal` annotation
— the domain state type itself, or an unrelated type such as `int` — passes
this check. -/
theorem return_annot_rejection_iff {Input : Type} (r : Registry Input)
    (s0 : StateVal) (rest : List StateVal) (func : Handler Input) :
    r.frozen = false →
    (∀ s ∈ s0 :: rest, s.domain = s0.domain) →
    func.params = r.specParams →
    (Registry.new r (s0 :: rest) func = .error .returnTypeMismatch ↔
      ∃ vals, func.retAnnot = RetAnnot.literal vals ∧
        ∃ v ∈ vals, v.domain ≠ s0.domain) := by
  intro hfz hall hp
  have hallb : ((s0 :: rest).all fun s => s.domain = s0.domain) = true := by
    rw [List.all_eq_true]
    intro x hx
    simpa using hall x hx
  unfold Registry.new
  rw [← badReturnAnnot_literal_iff func.retAnnot s0.domain]
  by_cases hb : badReturnAnnot func.retAnnot s0.domain = true
  · simp [hfz, hallb, hp, hb]
  · simp [hfz, hallb, hp, hb]

/-- Witness for C5's amended claim: `hLitBad`, annotated with a `Literal`
value from a foreign domain, is rejected with the return-type error. -/
theorem return_annot_rejection_iff_witness :
    Registry.new rOpenW [stA] hLitBad = .error .returnTypeMismatch := by
  have h := return_annot_rejection_iff rOpenW stA [] hLitBad rfl
    (by intro s hs; rw [List.mem_singleton] at hs; subst hs; rfl) rfl
  exact h.2 ⟨[⟨5, 1, true⟩], rfl, ⟨5, 1, true⟩, by simp, by decide⟩

/-- C6 counterexample: the wrapped handler `fManZ` returns the present value
`stZ`, which differs from the current state `stA`, yet the wrapper does not
commit it — `stZ` is falsy and the `current_state` setter discards it — so
the wrapper returns `stA`, not `stZ` as the claim requires. -/
theorem manual_falsy_result_not_committed_cex :
    fManZ stA 0 = some stZ ∧ stZ ≠ stA ∧ manualWrapper fManZ stA 0 = stA :=
  ⟨rfl, by decide, rfl⟩

/-- C6 amended: the manual wrapper always runs its wrapped handler; an
absent result commits nothing and the unchanged current state is returned;
a present result is assigned through the `current_state` setter, so a truthy
result is committed even when it equals the current state (no changed
check), while a falsy present result is discarded; the wrapper returns the
resulting current state. -/
theorem manual_wrapper_commits_via_setter {Input : Type}
    (f : StateVal → Input → Option StateVal) (cur : StateVal) (input : Input) :
    (f cur input = none → manualWrapper f cur input = cur) ∧
    (∀ s, f cur input = some s →
      manualWrapper f cur input = setCurrentState cur (some s)) ∧
    (∀ s, f cur input = some s → s.truthy = true →
      manualWrapper f cur input = s) ∧
    (∀ s, f cur input = some s → s.truthy = false →
      manualWrapper f cur input = cur) := by
  refine ⟨?_, ?_, ?_, ?_⟩
  · intro h
    simp [manualWrapper, h]
  · intro s h
    simp [manualWrapper, h]
  · intro s h ht
    simp [manualWrapper, h, setCurrentState, ht]
  · intro s h ht
    simp [manualWrapper, h, setCurrentState, ht]

/-- Witness for C6's amended claim: `fManB` commits `stB` from `stA`,
returns the unchanged `stB` when its result is absent, and `fManZ`'s falsy
present result `stZ` is discarded. -/
theorem manual_wrapper_commits_via_setter_witness :
    manualWrapper fManB stA 0 = stB ∧
    manualWrapper fManB stB 0 = stB ∧
    manualWrapper fManZ stA 0 = stA := by
  have h1 := (manual_wrapper_commits_via_setter fManB stA 0).2.2.1 stB rfl rfl
  have h2 := (manual_wrapper_commits_via_setter fManB stB 0).1 rfl
  have h3 := (manual_wrapper_commits_via_setter fManZ stA 0).2.2.2 stZ rfl rfl
  exact ⟨h1, h2, h3⟩

end Microstate
